import Mathlib

/-!
Shallow embedding of the interactive office canvas engine
(`OfficeCanvasPixi` and its helpers): scene registry reconciliation,
the per-frame interpolation ticker, zone hit-testing, the drag
lifecycle (pointerdown / pointermove / endDrag) and the selection
handlers (agent click, zone click, empty-canvas click).

Positions and times are modelled as rationals; the PIXI display
objects are reduced to the numeric fields the engine reads and
writes (`container.x/y`, `container.scale`, and the `AgentState`
record fields `displayX/Y`, `targetX/Y`, `animStart`, `isDragging`).
-/

namespace OfficeCanvas

/-- ANIM_DURATION = 600 (ms), the shared animation duration constant. -/
def ANIM_DURATION : ℚ := 600

/-- DRAG_THRESHOLD = 5 (px): below this, a release is a click not a drag. -/
def DRAG_THRESHOLD : ℚ := 5

/-- One zone definition row of the `zones` table. -/
structure ZoneDef where
  x : ℚ
  y : ℚ
  w : ℚ
  h : ℚ
  label : String
deriving DecidableEq

/-- The fixed zone layout configured at construction. -/
def zones : List ZoneDef :=
  [⟨20, 20, 220, 180, "Workstations"⟩,
   ⟨250, 20, 220, 180, "Whiteboard"⟩,
   ⟨480, 20, 180, 180, "Server Room"⟩,
   ⟨670, 20, 210, 180, "Library"⟩,
   ⟨20, 220, 420, 200, "Conference"⟩,
   ⟨450, 220, 220, 200, "Break Room"⟩,
   ⟨680, 220, 200, 200, "Mailroom / Outbox"⟩]

/-- The zone → agent-location table used when committing a drag. -/
def zoneToLocation (label : String) : Option String :=
  if label = "Workstations" then some "Desk"
  else if label = "Whiteboard" then some "Whiteboard"
  else if label = "Server Room" then some "ServerRoom"
  else if label = "Library" then some "Library"
  else if label = "Conference" then some "Conference"
  else if label = "Break Room" then some "BreakRoom"
  else if label = "Mailroom / Outbox" then some "Mailroom"
  else none

/-- The containment test of `getZoneForPosition`:
`x >= zone.x && x <= zone.x + zone.w && y >= zone.y && y <= zone.y + zone.h`. -/
def zoneContains (z : ZoneDef) (px py : ℚ) : Bool :=
  decide (z.x ≤ px) && decide (px ≤ z.x + z.w) &&
  decide (z.y ≤ py) && decide (py ≤ z.y + z.h)

/-- Linear first-match scan over the `zones` table. -/
def getZoneForPosition (px py : ℚ) : Option String :=
  (zones.find? (fun z => zoneContains z px py)).map (fun z => z.label)

/-- One roster-snapshot entry (an agent as supplied by the store). -/
structure Agent where
  id : String
  role : String
  status : String
  x : ℚ
  y : ℚ
deriving DecidableEq

/-- The per-entity visual record held in `agentStatesRef`, with the
PIXI container reduced to its position and scale. -/
structure AgentState where
  containerX : ℚ
  containerY : ℚ
  scale : ℚ
  displayX : ℚ
  displayY : ℚ
  targetX : ℚ
  targetY : ℚ
  animStart : ℚ
  isDragging : Bool
deriving DecidableEq

/-- The transient drag record held in `dragStateRef`. -/
structure DragState where
  agentId : String
  offsetX : ℚ
  offsetY : ℚ
  startX : ℚ
  startY : ℚ
deriving DecidableEq

/-- The registry `agentStatesRef`: entity id → visual record. -/
abbrev Registry := String → Option AgentState

/-- Point update of the registry at one id. -/
def Registry.update (reg : Registry) (id : String) (st : AgentState) : Registry :=
  fun k => if k = id then some st else reg k

/-- The engine-level mutable refs relevant to the claims. -/
structure EngineState where
  reg : Registry
  dragState : Option DragState
  selectedAgentId : Option String
  selectedZoneLabel : Option String
  hoveredZoneLabel : Option String

/-- Events the canvas emits to the host application. -/
inductive OutEvent where
  | positionCommitted (agentId : String) (x y : ℚ) (location : Option String)
  | selectionChangedEntity (id : String)
  | selectionChangedZone (label : String) (members : List Agent)
  | selectionChangedNone
deriving DecidableEq

/-- Update path of the reconcile effect for an already tracked agent:
skipped entirely while `isDragging`, otherwise `displayX/Y` is snapped to
the container position, the target set to the roster position and the
animation clock restarted. -/
def updateExisting (now : ℚ) (a : Agent) (st : AgentState) : AgentState :=
  if st.isDragging then st
  else
    { st with
      displayX := st.containerX
      displayY := st.containerY
      targetX := a.x
      targetY := a.y
      animStart := now }

/-- Creation path of the reconcile effect: container at the roster
position, `display = target = position`, `animStart = now`. -/
def freshState (a : Agent) (now : ℚ) : AgentState :=
  { containerX := a.x
    containerY := a.y
    scale := 1
    displayX := a.x
    displayY := a.y
    targetX := a.x
    targetY := a.y
    animStart := now
    isDragging := false }

/-- One iteration of the reconcile loop over the snapshot. -/
def reconcileStep (now : ℚ) (reg : Registry) (a : Agent) : Registry :=
  Registry.update reg a.id
    (match reg a.id with
     | some st => updateExisting now a st
     | none => freshState a now)

/-- The reconcile effect on the registry: every snapshot agent is
created or updated, and every tracked id absent from the snapshot is
destroyed. -/
def reconcile (now : ℚ) (snapshot : List Agent) (reg : Registry) : Registry :=
  fun k =>
    if snapshot.any (fun a => a.id == k) then
      (snapshot.foldl (reconcileStep now) reg) k
    else none

/-- The whole reconcile effect: it only rewrites the registry — the drag
ref, the selection refs and the hovered-zone ref are untouched, and no
selection event is emitted by it (the returned event list is empty). -/
def engineReconcile (now : ℚ) (snapshot : List Agent) (s : EngineState) :
    EngineState × List OutEvent :=
  ({ s with reg := reconcile now snapshot s.reg }, [])

/-- One ticker frame for one agent: dragged agents are skipped; otherwise
`progress = min(elapsed / ANIM_DURATION, 1)`, ease-out quadratic, the
container is moved to the interpolated point, and on `progress ≥ 1` the
display position collapses onto the target. -/
def tickerStep (now : ℚ) (st : AgentState) : AgentState :=
  if st.isDragging then st
  else
    let progress := min ((now - st.animStart) / ANIM_DURATION) 1
    let eased := 1 - (1 - progress) ^ 2
    let cx := st.displayX + (st.targetX - st.displayX) * eased
    let cy := st.displayY + (st.targetY - st.displayY) * eased
    if 1 ≤ progress then
      { st with containerX := cx, containerY := cy,
                displayX := st.targetX, displayY := st.targetY }
    else
      { st with containerX := cx, containerY := cy }

/-- One ticker frame over the whole registry. -/
def ticker (now : ℚ) (s : EngineState) : EngineState :=
  { s with reg := fun k => (s.reg k).map (tickerStep now) }

/-- The `pointerdown` handler on an agent container: mark it dragging and
record the drag state (pointer offset and start position). -/
def pointerdown (agentId : String) (px py : ℚ) (s : EngineState) : EngineState :=
  match s.reg agentId with
  | none => s
  | some st =>
    { s with
      reg := Registry.update s.reg agentId { st with isDragging := true }
      dragState := some
        { agentId := agentId
          offsetX := px - st.containerX
          offsetY := py - st.containerY
          startX := st.containerX
          startY := st.containerY } }

/-- The stage `pointermove` handler: while a drag is active, the dragged
container follows the pointer minus the captured offset; missing drag
state or a missing agent is a guarded no-op. -/
def pointermove (px py : ℚ) (s : EngineState) : EngineState :=
  match s.dragState with
  | none => s
  | some drag =>
    match s.reg drag.agentId with
    | none => s
    | some st =>
      { s with
        reg := Registry.update s.reg drag.agentId
          { st with containerX := px - drag.offsetX, containerY := py - drag.offsetY } }

/-- The `endDrag` handler (pointerup / pointerupoutside): clear the
dragging flag, commit the drop point (display, target, zone inference,
position-commit event) only when some axis displacement strictly exceeds
`DRAG_THRESHOLD`, reset the hover scale, and clear the drag state. -/
def endDrag (s : EngineState) : EngineState × Option OutEvent :=
  match s.dragState with
  | none => (s, none)
  | some drag =>
    match s.reg drag.agentId with
    | none => ({ s with dragState := none }, none)
    | some st0 =>
      let st1 := { st0 with isDragging := false }
      let newX := st1.containerX
      let newY := st1.containerY
      let dx := newX - drag.startX
      let dy := newY - drag.startY
      if DRAG_THRESHOLD < |dx| ∨ DRAG_THRESHOLD < |dy| then
        let st2 := { st1 with
          displayX := newX
          displayY := newY
          targetX := newX
          targetY := newY
          scale := 1 }
        let location := (getZoneForPosition newX newY).bind zoneToLocation
        ({ s with reg := Registry.update s.reg drag.agentId st2, dragState := none },
         some (.positionCommitted drag.agentId newX newY location))
      else
        ({ s with reg := Registry.update s.reg drag.agentId { st1 with scale := 1 },
                  dragState := none },
         none)

/-- The member-agent computation of the zone click handler:
`agentsRef.current.filter((a) => getZoneForPosition(a.x, a.y) === zone.label)`. -/
def membersOfZone (label : String) (roster : List Agent) : List Agent :=
  roster.filter (fun a => getZoneForPosition a.x a.y == some label)

/-- The agent `click` handler: clears any zone selection, selects the
agent, and (when the agent is still in the roster ref) reports the new
entity selection outward. -/
def agentClick (agentId : String) (roster : List Agent) (s : EngineState) :
    EngineState × Option OutEvent :=
  let s1 := { s with selectedZoneLabel := none, selectedAgentId := some agentId }
  match roster.find? (fun a => a.id == agentId) with
  | none => (s1, none)
  | some _ => (s1, some (.selectionChangedEntity agentId))

/-- The zone `click` handler: clears any agent selection, selects the
zone, and reports the zone with its member-agent list outward. -/
def zoneClick (label : String) (roster : List Agent) (s : EngineState) :
    EngineState × OutEvent :=
  ({ s with selectedAgentId := none, selectedZoneLabel := some label },
   .selectionChangedZone label (membersOfZone label roster))

/-- The stage `click` handler (empty canvas): clears both selections. -/
def stageClick (s : EngineState) : EngineState × OutEvent :=
  ({ s with selectedAgentId := none, selectedZoneLabel := none },
   .selectionChangedNone)

/-- A selection-inducing event, for stating the selection-exclusivity
invariant over arbitrary event sequences. -/
inductive SelEvent where
  | agent (id : String) (roster : List Agent)
  | zone (label : String) (roster : List Agent)
  | stage

/-- State transition of one selection-inducing event. -/
def applySelEvent (s : EngineState) (e : SelEvent) : EngineState :=
  match e with
  | .agent id roster => (agentClick id roster s).1
  | .zone label roster => (zoneClick label roster s).1
  | .stage => (stageClick s).1

/-- The selection-exclusivity invariant: at most one of the two
selection refs is non-null. -/
def selExclusive (s : EngineState) : Prop :=
  s.selectedAgentId = none ∨ s.selectedZoneLabel = none

/-- Member list carried by an outbound event (empty for non-zone events). -/
def eventMembers : OutEvent → List Agent
  | .selectionChangedZone _ ms => ms
  | _ => []

/-!  Helper lemmas shared by several claims. -/

lemma foldl_reconcileStep_dragging (now : ℚ) (snapshot : List Agent) (reg : Registry)
    (id : String) (st : AgentState) (h : reg id = some st) (hd : st.isDragging = true) :
    (snapshot.foldl (reconcileStep now) reg) id = some st := by
  induction snapshot generalizing reg with
  | nil => simpa using h
  | cons a tl ih =>
    refine ih _ ?_
    unfold reconcileStep Registry.update
    by_cases hid : id = a.id
    · subst hid
      simp [h, updateExisting, hd]
    · simp [hid, h]

lemma reconcile_dragging_mem (now : ℚ) (snapshot : List Agent) (reg : Registry)
    (id : String) (st : AgentState) (h : reg id = some st) (hd : st.isDragging = true)
    (hmem : snapshot.any (fun a => a.id == id) = true) :
    reconcile now snapshot reg id = some st := by
  unfold reconcile
  rw [hmem]
  simpa using foldl_reconcileStep_dragging now snapshot reg id st h hd

lemma tickerStep_dragging (now : ℚ) (st : AgentState) (hd : st.isDragging = true) :
    tickerStep now st = st := by
  unfold tickerStep
  simp [hd]

/-!  C1. -/

/-- Concrete material for C1: agent a1 dragged at (100,100), a tick moves
its roster position to (300,300) mid-drag. -/
def c1Agent : Agent := { id := "a1", role := "dev", status := "Working", x := 300, y := 300 }

def c1State : AgentState :=
  { containerX := 100, containerY := 100, scale := 1, displayX := 100, displayY := 100,
    targetX := 100, targetY := 100, animStart := 0, isDragging := true }

def c1Drag : DragState :=
  { agentId := "a1", offsetX := 0, offsetY := 0, startX := 100, startY := 100 }

def c1Engine : EngineState :=
  { reg := fun k => if k = "a1" then some c1State else none,
    dragState := some c1Drag, selectedAgentId := none, selectedZoneLabel := none,
    hoveredZoneLabel := none }

/-- C1: counterexample. Agent a1 is dragged (without net displacement) while a
reconcile delivers the tick-driven roster position (300,300). After the drag
ends and the next frame runs, a1's target is still the old (100,100): the
tick update was dropped outright, never queued as the next target nor applied
once the drag ended. -/
theorem c1_counterexample :
    ((endDrag (engineReconcile 100 [c1Agent] c1Engine).1).1.reg "a1").map
        AgentState.targetX = some 100 ∧
    ((endDrag (engineReconcile 100 [c1Agent] c1Engine).1).1.reg "a1").map
        AgentState.targetX ≠ some 300 ∧
    ((ticker 200 (endDrag (engineReconcile 100 [c1Agent] c1Engine).1).1).reg "a1").map
        AgentState.targetX ≠ some 300 := by
  norm_num [engineReconcile, reconcile, reconcileStep, updateExisting, freshState,
    Registry.update, endDrag, ticker, tickerStep, c1Agent, c1State, c1Drag, c1Engine,
    ANIM_DURATION, DRAG_THRESHOLD, min_def]

/-- C1 (amended): a reconcile (roster/tick update) arriving while an entity is
being dragged leaves that entity's visual record exactly unchanged — in
particular its targetPosition: the new target is dropped, not queued for
application after the drag ends. -/
theorem c1_reconcile_while_dragging_drops_update (now : ℚ) (snapshot : List Agent)
    (reg : Registry) (id : String) (st : AgentState)
    (h : reg id = some st) (hd : st.isDragging = true)
    (hmem : snapshot.any (fun a => a.id == id) = true) :
    reconcile now snapshot reg id = some st :=
  reconcile_dragging_mem now snapshot reg id st h hd hmem

/-- C1: witness for the amended theorem at the concrete C1 scenario. -/
theorem c1_witness : reconcile 100 [c1Agent] c1Engine.reg "a1" = some c1State :=
  c1_reconcile_while_dragging_drops_update 100 [c1Agent] c1Engine.reg "a1" c1State
    (by simp [c1Engine]) (by simp [c1State]) (by simp [c1Agent])

/-!  C2. -/

/-- Concrete material for C2: agent a2 is dragged and selected, then a
reconcile arrives whose snapshot omits it. -/
def c2State : AgentState :=
  { containerX := 150, containerY := 150, scale := 1, displayX := 150, displayY := 150,
    targetX := 150, targetY := 150, animStart := 0, isDragging := true }

def c2Drag : DragState :=
  { agentId := "a2", offsetX := 0, offsetY := 0, startX := 150, startY := 150 }

def c2Engine : EngineState :=
  { reg := fun k => if k = "a2" then some c2State else none,
    dragState := some c2Drag, selectedAgentId := some "a2", selectedZoneLabel := none,
    hoveredZoneLabel := none }

/-- C2: counterexample. A reconcile whose snapshot omits the dragged and
selected entity destroys its visual record but leaves the DragState orphaned
and the selection in place, and emits no event at all — in particular no
selectionChanged of kind none. -/
theorem c2_counterexample :
    (engineReconcile 100 [] c2Engine).1.reg "a2" = none ∧
    (engineReconcile 100 [] c2Engine).1.dragState = some c2Drag ∧
    (engineReconcile 100 [] c2Engine).1.selectedAgentId = some "a2" ∧
    (engineReconcile 100 [] c2Engine).2 = [] := by
  simp [engineReconcile, reconcile, c2Engine, c2Drag]

/-- C2 (amended): when the snapshot omits the dragged entity, the reconcile
destroys its visual record without crashing — the stale drag makes pointermove
a guarded no-op, and the next pointer-up clears the DragState without touching
the registry and without an event — but the reconcile itself leaves the
DragState and the selection refs in place and emits no selectionChanged
event. -/
theorem c2_stale_drag_guarded (now : ℚ) (snapshot : List Agent) (s : EngineState)
    (drag : DragState) (hds : s.dragState = some drag)
    (hmem : snapshot.any (fun a => a.id == drag.agentId) = false) :
    (engineReconcile now snapshot s).1.reg drag.agentId = none ∧
    (engineReconcile now snapshot s).1.dragState = some drag ∧
    (engineReconcile now snapshot s).1.selectedAgentId = s.selectedAgentId ∧
    (engineReconcile now snapshot s).2 = [] ∧
    (∀ px py : ℚ, pointermove px py (engineReconcile now snapshot s).1 =
      (engineReconcile now snapshot s).1) ∧
    endDrag (engineReconcile now snapshot s).1 =
      ({ (engineReconcile now snapshot s).1 with dragState := none }, none) := by
  obtain ⟨reg, ds, selA, selZ, hov⟩ := s
  have hds' : ds = some drag := hds
  subst hds'
  have hgone : reconcile now snapshot reg drag.agentId = none := by
    unfold reconcile
    rw [hmem]
    simp
  refine ⟨hgone, rfl, rfl, rfl, ?_, ?_⟩
  · intro px py
    unfold engineReconcile pointermove
    simp [hgone]
  · unfold engineReconcile endDrag
    simp [hgone]

/-- C2: witness for the amended theorem at the concrete C2 scenario. -/
theorem c2_witness :
    (engineReconcile 100 [] c2Engine).1.reg c2Drag.agentId = none ∧
    pointermove 3 4 (engineReconcile 100 [] c2Engine).1 =
      (engineReconcile 100 [] c2Engine).1 :=
  ⟨(c2_stale_drag_guarded 100 [] c2Engine c2Drag rfl (by simp)).1,
   (c2_stale_drag_guarded 100 [] c2Engine c2Drag rfl (by simp)).2.2.2.2.1 3 4⟩

/-!  C3. -/

/-- C3: re-targeting a tracked, non-dragging entity whose animation progress p
lies strictly between 0 and 1 snaps its displayPosition to the currently
rendered interpolated position oldDisplay + (oldTarget − oldDisplay) · (1 − (1 − p)²)
— never its old displayPosition and never its old targetPosition — installs
the new target, and resets animationStartTime to now. -/
theorem c3_retarget_snaps_to_rendered (st : AgentState) (t : ℚ) (a : Agent)
    (hnd : st.isDragging = false)
    (hp0 : 0 < (t - st.animStart) / ANIM_DURATION)
    (hp1 : (t - st.animStart) / ANIM_DURATION < 1)
    (hneX : st.displayX ≠ st.targetX) :
    (updateExisting t a (tickerStep t st)).displayX =
      st.displayX + (st.targetX - st.displayX) *
        (1 - (1 - (t - st.animStart) / ANIM_DURATION) ^ 2) ∧
    (updateExisting t a (tickerStep t st)).displayY =
      st.displayY + (st.targetY - st.displayY) *
        (1 - (1 - (t - st.animStart) / ANIM_DURATION) ^ 2) ∧
    (updateExisting t a (tickerStep t st)).displayX ≠ st.displayX ∧
    (updateExisting t a (tickerStep t st)).displayX ≠ st.targetX ∧
    (updateExisting t a (tickerStep t st)).targetX = a.x ∧
    (updateExisting t a (tickerStep t st)).targetY = a.y ∧
    (updateExisting t a (tickerStep t st)).animStart = t := by
  have hmin : min ((t - st.animStart) / ANIM_DURATION) 1 =
      (t - st.animStart) / ANIM_DURATION := min_eq_left (le_of_lt hp1)
  have hnotle : ¬ (1 : ℚ) ≤ (t - st.animStart) / ANIM_DURATION := not_le.mpr hp1
  set p := (t - st.animStart) / ANIM_DURATION with hpdef
  have heasedpos : 0 < 1 - (1 - p) ^ 2 := by nlinarith
  have heasedlt : 1 - (1 - p) ^ 2 < 1 := by nlinarith
  have hshape : (updateExisting t a (tickerStep t st)).displayX =
      st.displayX + (st.targetX - st.displayX) * (1 - (1 - p) ^ 2) ∧
      (updateExisting t a (tickerStep t st)).displayY =
      st.displayY + (st.targetY - st.displayY) * (1 - (1 - p) ^ 2) ∧
      (updateExisting t a (tickerStep t st)).targetX = a.x ∧
      (updateExisting t a (tickerStep t st)).targetY = a.y ∧
      (updateExisting t a (tickerStep t st)).animStart = t := by
    refine ⟨?_, ?_, ?_, ?_, ?_⟩ <;> simp [tickerStep, updateExisting, hnd, hmin, hnotle]
  obtain ⟨hx, hy, htx, hty, hanim⟩ := hshape
  refine ⟨hx, hy, ?_, ?_, htx, hty, hanim⟩
  · rw [hx]
    intro h
    have h0 : (st.targetX - st.displayX) * (1 - (1 - p) ^ 2) = 0 := by linarith
    rcases mul_eq_zero.mp h0 with h1 | h2
    · exact hneX (by linarith)
    · linarith
  · rw [hx]
    intro h
    have hd : st.targetX - st.displayX ≠ 0 := sub_ne_zero.mpr (Ne.symm hneX)
    have he : (1 - (1 - p) ^ 2) = 1 := by
      have h2 : (st.targetX - st.displayX) * (1 - (1 - p) ^ 2) =
          (st.targetX - st.displayX) * 1 := by linarith
      exact mul_left_cancel₀ hd h2
    linarith

/-- Concrete material for the C3 witness: entity mid-flight at progress 1/3. -/
def c3State : AgentState :=
  { containerX := 100, containerY := 100, scale := 1, displayX := 100, displayY := 100,
    targetX := 300, targetY := 300, animStart := 0, isDragging := false }

def c3Agent : Agent := { id := "a3", role := "qa", status := "Idle", x := 50, y := 60 }

/-- C3: witness at progress p = 1/3. -/
theorem c3_witness :
    (updateExisting 200 c3Agent (tickerStep 200 c3State)).displayX =
      c3State.displayX + (c3State.targetX - c3State.displayX) *
        (1 - (1 - (200 - c3State.animStart) / ANIM_DURATION) ^ 2) ∧
    (updateExisting 200 c3Agent (tickerStep 200 c3State)).displayX ≠ c3State.displayX ∧
    (updateExisting 200 c3Agent (tickerStep 200 c3State)).displayX ≠ c3State.targetX ∧
    (updateExisting 200 c3Agent (tickerStep 200 c3State)).animStart = 200 := by
  have h := c3_retarget_snaps_to_rendered c3State 200 c3Agent
    (by simp [c3State]) (by norm_num [c3State, ANIM_DURATION])
    (by norm_num [c3State, ANIM_DURATION]) (by norm_num [c3State])
  exact ⟨h.1, h.2.2.1, h.2.2.2.1, h.2.2.2.2.2.2⟩

/-!  C4. -/

lemma foldl_reconcile_dragging (calls : List (ℚ × List Agent)) (reg : Registry)
    (id : String) (st : AgentState) (h : reg id = some st) (hd : st.isDragging = true)
    (hall : ∀ c ∈ calls, (c.2).any (fun a => a.id == id) = true) :
    (calls.foldl (fun r c => reconcile c.1 c.2 r) reg) id = some st := by
  induction calls generalizing reg with
  | nil => simpa using h
  | cons c tl ih =>
    simp only [List.foldl_cons]
    exact ih (reconcile c.1 c.2 reg)
      (reconcile_dragging_mem c.1 c.2 reg id st h hd (hall c (List.mem_cons_self c tl)))
      (fun d hdm => hall d (List.mem_cons_of_mem c hdm))

/-- C4: while isDragging(e) holds, any sequence of reconcile calls (each of
whose snapshots still lists e) leaves e's visual record — in particular its
displayPosition — exactly unchanged, and a ticker frame leaves the dragged
record, hence its rendered container position, exactly unchanged: only the
pointer handlers move it. -/
theorem c4_drag_exclusivity (calls : List (ℚ × List Agent)) (reg : Registry)
    (id : String) (st : AgentState) (h : reg id = some st) (hd : st.isDragging = true)
    (hall : ∀ c ∈ calls, (c.2).any (fun a => a.id == id) = true) :
    (calls.foldl (fun r c => reconcile c.1 c.2 r) reg) id = some st ∧
    ∀ now, tickerStep now st = st :=
  ⟨foldl_reconcile_dragging calls reg id st h hd hall,
   fun now => tickerStep_dragging now st hd⟩

/-- Concrete material for the C4 witness. -/
def c4State : AgentState :=
  { containerX := 80, containerY := 90, scale := 1, displayX := 70, displayY := 75,
    targetX := 120, targetY := 130, animStart := 0, isDragging := true }

def c4Agent : Agent := { id := "a4", role := "ops", status := "Working", x := 500, y := 60 }

def c4Reg : Registry := fun k => if k = "a4" then some c4State else none

/-- C4: witness — two reconcile calls and one ticker frame on a dragged entity. -/
theorem c4_witness :
    (([(100, [c4Agent]), (200, [c4Agent])] : List (ℚ × List Agent)).foldl
      (fun r c => reconcile c.1 c.2 r) c4Reg) "a4" = some c4State ∧
    tickerStep 150 c4State = c4State := by
  have h := c4_drag_exclusivity [(100, [c4Agent]), (200, [c4Agent])] c4Reg "a4" c4State
    (by simp [c4Reg]) (by simp [c4State]) (by simp [c4Agent])
  exact ⟨h.1, h.2 150⟩

/-!  C6. -/

lemma tickerStep_fixpoint (st1 : AgentState) (later : ℚ)
    (hnd : st1.isDragging = false)
    (hdx : st1.displayX = st1.targetX) (hdy : st1.displayY = st1.targetY)
    (hcx : st1.containerX = st1.targetX) (hcy : st1.containerY = st1.targetY)
    (hel : st1.animStart + ANIM_DURATION ≤ later) :
    tickerStep later st1 = st1 := by
  obtain ⟨cX, cY, sc, dX, dY, tX, tY, aS, dr⟩ := st1
  replace hnd : dr = false := hnd
  replace hdx : dX = tX := hdx
  replace hdy : dY = tY := hdy
  replace hcx : cX = tX := hcx
  replace hcy : cY = tY := hcy
  replace hel : aS + ANIM_DURATION ≤ later := hel
  subst hnd hdx hdy hcx hcy
  have hdur : (0 : ℚ) < ANIM_DURATION := by norm_num [ANIM_DURATION]
  have hdiv : 1 ≤ (later - aS) / ANIM_DURATION := (one_le_div hdur).mpr (by linarith)
  have hmin : min ((later - aS) / ANIM_DURATION) 1 = 1 := min_eq_right hdiv
  simp [tickerStep, hmin, AgentState.mk.injEq]

/-- C6: for a non-dragging entity, once ANIM_DURATION has elapsed since
animationStartTime, the ticker collapses displayPosition onto targetPosition
exactly (and renders the container there), and every subsequent frame leaves
the record unchanged — the collapse is an idempotent terminal state. -/
theorem c6_convergence (st : AgentState) (now : ℚ)
    (hnd : st.isDragging = false) (h : st.animStart + ANIM_DURATION ≤ now) :
    (tickerStep now st).displayX = st.targetX ∧
    (tickerStep now st).displayY = st.targetY ∧
    (tickerStep now st).containerX = st.targetX ∧
    (tickerStep now st).containerY = st.targetY ∧
    (tickerStep now st).targetX = st.targetX ∧
    (tickerStep now st).targetY = st.targetY ∧
    ∀ later, st.animStart + ANIM_DURATION ≤ later →
      tickerStep later (tickerStep now st) = tickerStep now st := by
  have hdur : (0 : ℚ) < ANIM_DURATION := by norm_num [ANIM_DURATION]
  have hdiv : 1 ≤ (now - st.animStart) / ANIM_DURATION :=
    (one_le_div hdur).mpr (by linarith)
  have hmin : min ((now - st.animStart) / ANIM_DURATION) 1 = 1 := min_eq_right hdiv
  have hfields : (tickerStep now st).displayX = st.targetX ∧
      (tickerStep now st).displayY = st.targetY ∧
      (tickerStep now st).containerX = st.targetX ∧
      (tickerStep now st).containerY = st.targetY ∧
      (tickerStep now st).targetX = st.targetX ∧
      (tickerStep now st).targetY = st.targetY ∧
      (tickerStep now st).animStart = st.animStart ∧
      (tickerStep now st).isDragging = false ∧
      (tickerStep now st).scale = st.scale := by
    refine ⟨?_, ?_, ?_, ?_, ?_, ?_, ?_, ?_, ?_⟩ <;>
      simp [tickerStep, hnd, hmin]
  obtain ⟨h1, h2, h3, h4, h5, h6, h7, h8, h9⟩ := hfields
  refine ⟨h1, h2, h3, h4, h5, h6, ?_⟩
  intro later hlater
  exact tickerStep_fixpoint (tickerStep now st) later h8
    (by rw [h1, h5]) (by rw [h2, h6]) (by rw [h3, h5]) (by rw [h4, h6])
    (by rw [h7]; linarith)

/-- Concrete material for the C6 witness. -/
def c6State : AgentState :=
  { containerX := 10, containerY := 20, scale := 1, displayX := 10, displayY := 20,
    targetX := 400, targetY := 380, animStart := 0, isDragging := false }

/-- C6: witness — the animation has fully elapsed at t = 700 and the frame at
t = 1300 is a fixpoint. -/
theorem c6_witness :
    (tickerStep 700 c6State).displayX = c6State.targetX ∧
    (tickerStep 700 c6State).containerX = c6State.targetX ∧
    tickerStep 1300 (tickerStep 700 c6State) = tickerStep 700 c6State := by
  have h := c6_convergence c6State 700 (by simp [c6State])
    (by norm_num [c6State, ANIM_DURATION])
  exact ⟨h.1, h.2.2.1, h.2.2.2.2.2.2 1300 (by norm_num [c6State, ANIM_DURATION])⟩

/-!  C7. -/

/-- C7: after any sequence of selection-inducing events (agent clicks, zone
clicks, empty-canvas clicks) starting from a state satisfying the invariant,
at most one of selectedAgentId and selectedZoneLabel is non-null: selecting an
agent clears any zone selection and selecting a zone clears any agent
selection. -/
theorem c7_selection_exclusivity (events : List SelEvent) (s : EngineState)
    (h : selExclusive s) :
    selExclusive (events.foldl applySelEvent s) := by
  induction events generalizing s with
  | nil => simpa using h
  | cons e tl ih =>
    simp only [List.foldl_cons]
    apply ih
    cases e with
    | agent id roster =>
      unfold applySelEvent agentClick
      cases hfind : roster.find? (fun a => a.id == id) <;>
        simp [selExclusive, hfind]
    | zone label roster =>
      simp [applySelEvent, zoneClick, selExclusive]
    | stage =>
      simp [applySelEvent, stageClick, selExclusive]

/-- Concrete material for the C7 witness. -/
def c7Engine : EngineState :=
  { reg := fun _ => none, dragState := none, selectedAgentId := none,
    selectedZoneLabel := none, hoveredZoneLabel := none }

/-- C7: witness — an agent click followed by a zone click and a stage click
keeps the exclusivity invariant. -/
theorem c7_witness :
    selExclusive
      (([SelEvent.agent "a7" [], SelEvent.zone "Conference" [], SelEvent.stage] :
        List SelEvent).foldl applySelEvent c7Engine) :=
  c7_selection_exclusivity [SelEvent.agent "a7" [], SelEvent.zone "Conference" [],
    SelEvent.stage] c7Engine (Or.inl rfl)

/-!  C5. -/

/-- Concrete material for the C5 counterexample: a release whose total
displacement is exactly the 5-pixel threshold (dx = 5, dy = 0). -/
def c5State : AgentState :=
  { containerX := 105, containerY := 100, scale := 1, displayX := 100, displayY := 100,
    targetX := 100, targetY := 100, animStart := 0, isDragging := true }

def c5Drag : DragState :=
  { agentId := "a5", offsetX := 0, offsetY := 0, startX := 100, startY := 100 }

def c5Engine : EngineState :=
  { reg := fun k => if k = "a5" then some c5State else none,
    dragState := some c5Drag, selectedAgentId := none, selectedZoneLabel := none,
    hoveredZoneLabel := none }

/-- C5: counterexample. At total displacement exactly equal to the threshold
(dx = 5 = DRAG_THRESHOLD, dy = 0, so displacement ≥ threshold), the release
produces no positionCommitted event: the code commits only when some axis
displacement strictly exceeds the threshold. -/
theorem c5_counterexample :
    |c5State.containerX - c5Drag.startX| = DRAG_THRESHOLD ∧
    (endDrag c5Engine).2 = none := by
  constructor
  · norm_num [c5State, c5Drag, DRAG_THRESHOLD]
  · norm_num [endDrag, c5Engine, c5Drag, c5State, DRAG_THRESHOLD, Registry.update]

/-- C5 (amended): a release commits iff some axis displacement strictly
exceeds DRAG_THRESHOLD. Above it, a positionCommitted event carrying the drop
point and the zone inferred via the zone index is emitted and both
displayPosition and targetPosition are set to the drop point; when both axis
displacements are at most the threshold, no positionCommitted is emitted and
the release falls through to the click handler, which emits the
selectionChanged event for the entity. -/
theorem c5_click_vs_drag (s : EngineState) (drag : DragState) (st : AgentState)
    (hds : s.dragState = some drag) (hreg : s.reg drag.agentId = some st) :
    ((DRAG_THRESHOLD < |st.containerX - drag.startX| ∨
      DRAG_THRESHOLD < |st.containerY - drag.startY|) →
      (endDrag s).2 = some (OutEvent.positionCommitted drag.agentId st.containerX
        st.containerY ((getZoneForPosition st.containerX st.containerY).bind
          zoneToLocation)) ∧
      ((endDrag s).1.reg drag.agentId).map AgentState.displayX = some st.containerX ∧
      ((endDrag s).1.reg drag.agentId).map AgentState.displayY = some st.containerY ∧
      ((endDrag s).1.reg drag.agentId).map AgentState.targetX = some st.containerX ∧
      ((endDrag s).1.reg drag.agentId).map AgentState.targetY = some st.containerY) ∧
    ((|st.containerX - drag.startX| ≤ DRAG_THRESHOLD ∧
      |st.containerY - drag.startY| ≤ DRAG_THRESHOLD) →
      (endDrag s).2 = none ∧
      ∀ roster a, roster.find? (fun b => b.id == drag.agentId) = some a →
        (agentClick drag.agentId roster (endDrag s).1).2 =
          some (OutEvent.selectionChangedEntity drag.agentId)) := by
  obtain ⟨reg, ds, selA, selZ, hov⟩ := s
  replace hds : ds = some drag := hds
  subst hds
  replace hreg : reg drag.agentId = some st := hreg
  obtain ⟨cX, cY, sc, dX, dY, tX, tY, aS, dr⟩ := st
  constructor
  · intro hb
    unfold endDrag
    simp only [hreg]
    rw [if_pos hb]
    refine ⟨rfl, ?_, ?_, ?_, ?_⟩ <;> simp [Registry.update]
  · intro hle
    have hnb : ¬ (DRAG_THRESHOLD < |cX - drag.startX| ∨
        DRAG_THRESHOLD < |cY - drag.startY|) :=
      not_or.mpr ⟨not_lt.mpr hle.1, not_lt.mpr hle.2⟩
    constructor
    · unfold endDrag
      simp only [hreg]
      rw [if_neg hnb]
    · intro roster a hfa
      unfold endDrag
      simp only [hreg]
      rw [if_neg hnb]
      unfold agentClick
      simp [hfa]

/-- Concrete material for the C5 witness: the spec scenario, a drag released
at (250, 50) after starting at (100, 100). -/
def c5CommitState : AgentState :=
  { containerX := 250, containerY := 50, scale := 1, displayX := 100, displayY := 100,
    targetX := 100, targetY := 100, animStart := 0, isDragging := true }

def c5CommitDrag : DragState :=
  { agentId := "a1", offsetX := 0, offsetY := 0, startX := 100, startY := 100 }

def c5CommitEngine : EngineState :=
  { reg := fun k => if k = "a1" then some c5CommitState else none,
    dragState := some c5CommitDrag, selectedAgentId := none, selectedZoneLabel := none,
    hoveredZoneLabel := none }

/-- C5: witness — dropping a1 at (250, 50) commits with the zone inferred as
Whiteboard and re-targets the entity to the drop point. -/
theorem c5_witness :
    (endDrag c5CommitEngine).2 = some (OutEvent.positionCommitted "a1" 250 50
      (some "Whiteboard")) ∧
    ((endDrag c5CommitEngine).1.reg "a1").map AgentState.targetX = some 250 := by
  have h := (c5_click_vs_drag c5CommitEngine c5CommitDrag c5CommitState rfl
      (by simp [c5CommitEngine, c5CommitDrag, c5CommitState])).1
    (by norm_num [c5CommitState, c5CommitDrag, DRAG_THRESHOLD])
  refine ⟨?_, ?_⟩
  · rw [h.1]
    have hz : getZoneForPosition (250 : ℚ) 50 = some "Whiteboard" := by
      norm_num [getZoneForPosition, zones, zoneContains, List.find?]
    have hloc : zoneToLocation "Whiteboard" = some "Whiteboard" := by decide
    simp [c5CommitDrag, c5CommitState, hz, hloc]
  · exact h.2.2.2.1

/-!  C8. -/

/-- Axis-separation test for two zone rectangles. -/
def zoneSepB (z1 z2 : ZoneDef) : Bool :=
  decide (z1.x + z1.w < z2.x) || decide (z2.x + z2.w < z1.x) ||
  decide (z1.y + z1.h < z2.y) || decide (z2.y + z2.h < z1.y)

lemma zoneSepB_not_both (z1 z2 : ZoneDef) (px py : ℚ) (hsep : zoneSepB z1 z2 = true)
    (h1 : zoneContains z1 px py = true) (h2 : zoneContains z2 px py = true) :
    False := by
  unfold zoneSepB at hsep
  unfold zoneContains at h1 h2
  simp only [Bool.or_eq_true, Bool.and_eq_true, decide_eq_true_eq] at hsep h1 h2
  obtain ⟨⟨⟨a1, a2⟩, a3⟩, a4⟩ := h1
  obtain ⟨⟨⟨b1, b2⟩, b3⟩, b4⟩ := h2
  rcases hsep with ((s1 | s2) | s3) | s4 <;> linarith

lemma zones_pairwise_sep :
    zones.Pairwise (fun z1 z2 => zoneSepB z1 z2 = true ∧ zoneSepB z2 z1 = true) := by
  norm_num [zones, List.pairwise_cons, zoneSepB]

lemma zones_contains_unique (px py : ℚ) (z1 z2 : ZoneDef)
    (h1 : z1 ∈ zones) (h2 : z2 ∈ zones)
    (hc1 : zoneContains z1 px py = true) (hc2 : zoneContains z2 px py = true) :
    z1 = z2 := by
  by_contra hne
  have hsym : Symmetric (fun z1 z2 : ZoneDef =>
      zoneSepB z1 z2 = true ∧ zoneSepB z2 z1 = true) :=
    fun a b hab => ⟨hab.2, hab.1⟩
  have hsep := List.Pairwise.forall hsym zones_pairwise_sep h1 h2 hne
  exact zoneSepB_not_both z1 z2 px py hsep.1 hc1 hc2

lemma zones_labels_nodup : (zones.map ZoneDef.label).Nodup := by decide

lemma zones_label_inj (z1 z2 : ZoneDef) (h1 : z1 ∈ zones) (h2 : z2 ∈ zones)
    (hl : z1.label = z2.label) : z1 = z2 :=
  List.inj_on_of_nodup_map zones_labels_nodup h1 h2 hl

lemma getZone_some_iff (px py : ℚ) (l : String) :
    getZoneForPosition px py = some l ↔
      ∃ z, z ∈ zones ∧ zoneContains z px py = true ∧ z.label = l := by
  constructor
  · intro h
    unfold getZoneForPosition at h
    cases hf : zones.find? (fun z => zoneContains z px py) with
    | none =>
      rw [hf] at h
      exact Option.noConfusion h
    | some z =>
      rw [hf] at h
      have hc : zoneContains z px py = true := by simpa using List.find?_some hf
      refine ⟨z, List.mem_of_find?_eq_some hf, hc, ?_⟩
      simpa using h
  · rintro ⟨z, hz, hc, hl⟩
    unfold getZoneForPosition
    have hsome : (zones.find? (fun z => zoneContains z px py)).isSome := by
      rw [List.find?_isSome]
      exact ⟨z, hz, hc⟩
    cases hf : zones.find? (fun z => zoneContains z px py) with
    | none => rw [hf] at hsome; simp at hsome
    | some z2 =>
      have hc2 : zoneContains z2 px py = true := by simpa using List.find?_some hf
      have hz2 : z2 = z :=
        zones_contains_unique px py z2 z (List.mem_of_find?_eq_some hf) hz hc2 hc
      subst hz2
      simp [hl]

/-- C8: every point lies within the closed bounds of at most one zone of the
fixed layout, so the first-match linear scan getZoneForPosition is
well-defined: it returns some l exactly when a zone with label l contains the
point, a characterisation independent of scan order. -/
theorem c8_zone_disjointness (px py : ℚ) :
    (∀ z1 z2, z1 ∈ zones → z2 ∈ zones → zoneContains z1 px py = true →
      zoneContains z2 px py = true → z1 = z2) ∧
    (∀ l, getZoneForPosition px py = some l ↔
      ∃ z, z ∈ zones ∧ zoneContains z px py = true ∧ z.label = l) :=
  ⟨fun z1 z2 h1 h2 hc1 hc2 => zones_contains_unique px py z1 z2 h1 h2 hc1 hc2,
   fun l => getZone_some_iff px py l⟩

/-- C8: witness — the characterisation pins down the scan result at a sample
point in the Workstations zone. -/
theorem c8_witness : getZoneForPosition 30 30 = some "Workstations" := by
  refine ((c8_zone_disjointness 30 30).2 "Workstations").mpr
    ⟨⟨20, 20, 220, 180, "Workstations"⟩, ?_, ?_, rfl⟩
  · simp [zones]
  · norm_num [zoneContains]

/-!  C9. -/

lemma getZone_eq_label_iff (z : ZoneDef) (hz : z ∈ zones) (px py : ℚ) :
    getZoneForPosition px py = some z.label ↔ zoneContains z px py = true := by
  constructor
  · intro h
    obtain ⟨z2, hz2, hc2, hl2⟩ := (getZone_some_iff px py z.label).mp h
    have : z2 = z := zones_label_inj z2 z hz2 hz hl2
    exact this ▸ hc2
  · intro hc
    exact (getZone_some_iff px py z.label).mpr ⟨z, hz, hc, rfl⟩

/-- Concrete material for the C9 counterexample: agent a9 is mid-animation,
rendered at (300, 100) inside Whiteboard, while its roster position is
(100, 100) inside Workstations. -/
def c9Agent : Agent := { id := "a9", role := "dev", status := "Idle", x := 100, y := 100 }

def c9State : AgentState :=
  { containerX := 300, containerY := 100, scale := 1, displayX := 280, displayY := 100,
    targetX := 100, targetY := 100, animStart := 0, isDragging := false }

def c9Engine : EngineState :=
  { reg := fun k => if k = "a9" then some c9State else none,
    dragState := none, selectedAgentId := none, selectedZoneLabel := none,
    hoveredZoneLabel := none }

/-- C9: counterexample. Clicking the Workstations zone lists a9 as a member
because its roster position (100, 100) lies there, even though its current
rendered (container) position (300, 100) lies in the Whiteboard zone — the
member list is computed from roster positions, not rendered positions. -/
theorem c9_counterexample :
    eventMembers (zoneClick "Workstations" [c9Agent] c9Engine).2 = [c9Agent] ∧
    (c9Engine.reg "a9").map AgentState.containerX = some 300 ∧
    (c9Engine.reg "a9").map AgentState.containerY = some 100 ∧
    getZoneForPosition 300 100 = some "Whiteboard" ∧
    "Whiteboard" ≠ "Workstations" := by
  refine ⟨?_, by simp [c9Engine, c9State], by simp [c9Engine, c9State], ?_, by decide⟩
  · have hz : getZoneForPosition (100 : ℚ) 100 = some "Workstations" := by
      norm_num [getZoneForPosition, zones, zoneContains, List.find?]
    simp [zoneClick, eventMembers, membersOfZone, c9Agent, hz]
  · norm_num [getZoneForPosition, zones, zoneContains, List.find?]

/-- C9 (amended): the member-agent list of a zone click contains exactly the
roster agents whose authoritative roster position (a.x, a.y) lies within the
zone's bounds — the roster position, not the currently rendered position. -/
theorem c9_members_by_roster_position (z : ZoneDef) (hz : z ∈ zones)
    (roster : List Agent) (s : EngineState) (a : Agent) :
    a ∈ eventMembers (zoneClick z.label roster s).2 ↔
      a ∈ roster ∧ zoneContains z a.x a.y = true := by
  simp only [zoneClick, eventMembers, membersOfZone, List.mem_filter, beq_iff_eq]
  exact and_congr_right fun _ => getZone_eq_label_iff z hz a.x a.y

/-- C9: witness — a9 is a member of the clicked Workstations zone by its
roster position. -/
theorem c9_witness :
    c9Agent ∈ eventMembers (zoneClick "Workstations" [c9Agent] c9Engine).2 := by
  have h := c9_members_by_roster_position ⟨20, 20, 220, 180, "Workstations"⟩
    (by simp [zones]) [c9Agent] c9Engine c9Agent
  exact h.mpr ⟨by simp, by norm_num [zoneContains, c9Agent]⟩

/-!  C10. -/

lemma pointermove_keeps_fields (moves : List (ℚ × ℚ)) (s1 : EngineState)
    (drag : DragState) (h1 : s1.dragState = some drag) :
    (moves.foldl (fun acc m => pointermove m.1 m.2 acc) s1).dragState = some drag ∧
    ∀ st', s1.reg drag.agentId = some st' →
      ∃ st2, (moves.foldl (fun acc m => pointermove m.1 m.2 acc) s1).reg drag.agentId =
          some st2 ∧
        st2.displayX = st'.displayX ∧ st2.displayY = st'.displayY ∧
        st2.targetX = st'.targetX ∧ st2.targetY = st'.targetY ∧
        st2.animStart = st'.animStart ∧ st2.isDragging = st'.isDragging ∧
        st2.scale = st'.scale := by
  induction moves generalizing s1 with
  | nil =>
    exact ⟨h1, fun st' h => ⟨st', h, rfl, rfl, rfl, rfl, rfl, rfl, rfl⟩⟩
  | cons m tl ih =>
    obtain ⟨reg, ds, selA, selZ, hov⟩ := s1
    replace h1 : ds = some drag := h1
    subst h1
    simp only [List.foldl_cons]
    cases hreg : reg drag.agentId with
    | none =>
      have hpm : pointermove m.1 m.2 ⟨reg, some drag, selA, selZ, hov⟩ =
          ⟨reg, some drag, selA, selZ, hov⟩ := by
        unfold pointermove
        simp [hreg]
      rw [hpm]
      refine ⟨(ih ⟨reg, some drag, selA, selZ, hov⟩ rfl).1, ?_⟩
      intro st' h
      exact Option.noConfusion h
    | some st =>
      have hpm : pointermove m.1 m.2 ⟨reg, some drag, selA, selZ, hov⟩ =
          ⟨Registry.update reg drag.agentId
            { st with containerX := m.1 - drag.offsetX,
                      containerY := m.2 - drag.offsetY },
           some drag, selA, selZ, hov⟩ := by
        unfold pointermove
        simp [hreg]
      rw [hpm]
      obtain ⟨hds2, hpres⟩ := ih
        ⟨Registry.update reg drag.agentId
          { st with containerX := m.1 - drag.offsetX,
                    containerY := m.2 - drag.offsetY },
         some drag, selA, selZ, hov⟩ rfl
      refine ⟨hds2, ?_⟩
      intro st' h
      have hst : st' = st := by
        injection h with h2
        exact h2.symm
      subst st'
      obtain ⟨st2, hst2, f1, f2, f3, f4, f5, f6, f7⟩ :=
        hpres { st with containerX := m.1 - drag.offsetX,
                        containerY := m.2 - drag.offsetY }
          (by simp [Registry.update])
      exact ⟨st2, hst2, f1, f2, f3, f4, f5, f6, f7⟩

/-- C10: a drag released with both axis displacements within the threshold (a
click) leaves the entity's displayPosition, targetPosition and
animationStartTime exactly as they were at pointer-down; only the isDragging
flag is cleared and the hover scale reset, and no positionCommitted event is
emitted — the entity resumes animating toward its pre-drag target. -/
theorem c10_click_release_preserves_animation (s : EngineState) (id : String)
    (st : AgentState) (px py : ℚ) (moves : List (ℚ × ℚ))
    (hreg : s.reg id = some st)
    (hthr : ∀ st2, (moves.foldl (fun acc m => pointermove m.1 m.2 acc)
        (pointerdown id px py s)).reg id = some st2 →
      |st2.containerX - st.containerX| ≤ DRAG_THRESHOLD ∧
      |st2.containerY - st.containerY| ≤ DRAG_THRESHOLD) :
    (endDrag (moves.foldl (fun acc m => pointermove m.1 m.2 acc)
        (pointerdown id px py s))).2 = none ∧
    ∃ st3, (endDrag (moves.foldl (fun acc m => pointermove m.1 m.2 acc)
        (pointerdown id px py s))).1.reg id = some st3 ∧
      st3.displayX = st.displayX ∧ st3.displayY = st.displayY ∧
      st3.targetX = st.targetX ∧ st3.targetY = st.targetY ∧
      st3.animStart = st.animStart ∧ st3.isDragging = false ∧ st3.scale = 1 := by
  obtain ⟨reg, ds, selA, selZ, hov⟩ := s
  replace hreg : reg id = some st := hreg
  have hpd : pointerdown id px py ⟨reg, ds, selA, selZ, hov⟩ =
      ⟨Registry.update reg id { st with isDragging := true },
       some { agentId := id, offsetX := px - st.containerX,
              offsetY := py - st.containerY,
              startX := st.containerX, startY := st.containerY },
       selA, selZ, hov⟩ := by
    unfold pointerdown
    simp [hreg]
  rw [hpd] at hthr ⊢
  obtain ⟨hds2, hpres⟩ := pointermove_keeps_fields moves
    ⟨Registry.update reg id { st with isDragging := true },
     some { agentId := id, offsetX := px - st.containerX,
            offsetY := py - st.containerY,
            startX := st.containerX, startY := st.containerY },
     selA, selZ, hov⟩
    { agentId := id, offsetX := px - st.containerX, offsetY := py - st.containerY,
      startX := st.containerX, startY := st.containerY } rfl
  obtain ⟨st2, hst2, f1, f2, f3, f4, f5, f6, f7⟩ :=
    hpres { st with isDragging := true } (by simp [Registry.update])
  obtain ⟨hx, hy⟩ := hthr st2 hst2
  set s2 : EngineState := moves.foldl (fun acc m => pointermove m.1 m.2 acc)
    ⟨Registry.update reg id { st with isDragging := true },
     some { agentId := id, offsetX := px - st.containerX,
            offsetY := py - st.containerY,
            startX := st.containerX, startY := st.containerY },
     selA, selZ, hov⟩ with hs2
  clear_value s2
  clear hs2 hthr hpres
  obtain ⟨reg2, ds2, selA2, selZ2, hov2⟩ := s2
  replace hds2 : ds2 = some (DragState.mk id (px - st.containerX)
    (py - st.containerY) st.containerX st.containerY) := hds2
  subst hds2
  replace hst2 : reg2 id = some st2 := hst2
  have hnb : ¬ (DRAG_THRESHOLD < |st2.containerX - st.containerX| ∨
      DRAG_THRESHOLD < |st2.containerY - st.containerY|) :=
    not_or.mpr ⟨not_lt.mpr hx, not_lt.mpr hy⟩
  unfold endDrag
  simp only [hst2]
  rw [if_neg hnb]
  refine ⟨rfl, ⟨{ st2 with isDragging := false, scale := 1 }, ?_, ?_, ?_, ?_, ?_, ?_, rfl, rfl⟩⟩
  · simp [Registry.update]
  · exact f1
  · exact f2
  · exact f3
  · exact f4
  · exact f5

/-- Concrete material for the C10 witness: a 2-pixel jiggle on a hovered,
mid-animation entity. -/
def c10State : AgentState :=
  { containerX := 100, containerY := 100, scale := 23/20, displayX := 90, displayY := 95,
    targetX := 110, targetY := 115, animStart := 7, isDragging := false }

def c10Engine : EngineState :=
  { reg := fun k => if k = "a10" then some c10State else none,
    dragState := none, selectedAgentId := none, selectedZoneLabel := none,
    hoveredZoneLabel := none }

/-- C10: witness — pointer-down at (102, 100), one small move, release: no
commit, and display, target and animStart are exactly the pre-drag values. -/
theorem c10_witness :
    (endDrag (([((104 : ℚ), (101 : ℚ))]).foldl (fun acc m => pointermove m.1 m.2 acc)
        (pointerdown "a10" 102 100 c10Engine))).2 = none ∧
    ∃ st3, (endDrag (([((104 : ℚ), (101 : ℚ))]).foldl
        (fun acc m => pointermove m.1 m.2 acc)
        (pointerdown "a10" 102 100 c10Engine))).1.reg "a10" = some st3 ∧
      st3.displayX = c10State.displayX ∧ st3.displayY = c10State.displayY ∧
      st3.targetX = c10State.targetX ∧ st3.targetY = c10State.targetY ∧
      st3.animStart = c10State.animStart ∧ st3.isDragging = false ∧ st3.scale = 1 := by
  refine c10_click_release_preserves_animation c10Engine "a10" c10State 102 100
    [(104, 101)] (by simp [c10Engine]) ?_
  intro st2 h
  simp only [List.foldl_cons, List.foldl_nil] at h
  have hpd : pointerdown "a10" 102 100 c10Engine =
      ⟨Registry.update c10Engine.reg "a10" { c10State with isDragging := true },
       some { agentId := "a10", offsetX := 2, offsetY := 0, startX := 100, startY := 100 },
       none, none, none⟩ := by
    unfold pointerdown
    have : c10Engine.reg "a10" = some c10State := by simp [c10Engine]
    simp [this, c10Engine, c10State, DragState.mk.injEq]
    norm_num
  rw [hpd] at h
  have hpm : pointermove 104 101
      (⟨Registry.update c10Engine.reg "a10" { c10State with isDragging := true },
        some { agentId := "a10", offsetX := 2, offsetY := 0, startX := 100, startY := 100 },
        none, none, none⟩ : EngineState) =
      ⟨Registry.update (Registry.update c10Engine.reg "a10"
          { c10State with isDragging := true }) "a10"
          { c10State with isDragging := true, containerX := 102, containerY := 101 },
       some { agentId := "a10", offsetX := 2, offsetY := 0, startX := 100, startY := 100 },
       none, none, none⟩ := by
    unfold pointermove
    simp [Registry.update, AgentState.mk.injEq, c10State]
    norm_num
  rw [hpm] at h
  simp [Registry.update] at h
  subst h
  norm_num [c10State, DRAG_THRESHOLD]

end OfficeCanvas
